import Mathlib

/-!
A verification development for the backtest simulation engine of the
`trader` repository (package `one`, files `backtest.go`, `one.go`,
`purchase/purchase.go`).

The Go code is shallowly embedded:
* `shopspring/decimal` values (exact decimal arithmetic) are modelled by `ℚ`
  (decimal numbers are rationals, and `Add`/`Sub`/`Mul` on them are exact);
  the `float32`/`float64` intermediates of the strategy layer are modelled by
  exact rational arithmetic as well.
* `time.Time` in the fixed backtest location is modelled by an `Int` counting
  wall-clock seconds; `t / 86400` (Euclidean division) is the calendar-day
  index, `t % 86400` the second of the local day.  Unix epoch day 0 being a
  Thursday, the weekday (Sunday = 0) of `t` is `(t / 86400 + 4) % 7`, matching
  Go `Time.Weekday`.
* the Go map `epochToTickerData : map[int64]*historicalTickerData` is modelled
  by an association list, keys paired with `Option historicalTickerData`
  (a `none` value is a stored nil pointer); insertion is `cons`, lookup takes
  the most recent binding, which models map overwrite.
* fallible operations (CSV field parsing) are abstracted by `Option`-valued
  record fields, and the loader propagates failures through `Except`.
* `rand`-driven choices (`randomFillOrder`) are passed in as an explicit
  boolean parameter (`gate`), the value the random gate returned.
-/

/-! ## Time model (Go `time` package operations used by `backtest.go`) -/

/-- Calendar day index of a wall-clock second count (floor division). -/
def dayIndex (t : Int) : Int := t / 86400

/-- Start of the calendar day containing `t`; this is what
`time.Date(t.Year(), t.Month(), t.Day(), 0, 0, 0, 0, loc)` denotes. -/
def dayStart (t : Int) : Int := dayIndex t * 86400

/-- Second-of-day of `t`, in `[0, 86400)`. -/
def secondOfDay (t : Int) : Int := t % 86400

/-- Go `Time.Weekday`: Sunday = 0, …, Saturday = 6.  Unix day 0 is a
Thursday (= 4). -/
def weekday (t : Int) : Int := (t / 86400 + 4) % 7

/-- Go `Time.Hour`. -/
def hourOf (t : Int) : Int := secondOfDay t / 3600

/-- Go `Time.Minute`. -/
def minuteOf (t : Int) : Int := secondOfDay t % 3600 / 60

/-- Go `Time.Second`. -/
def secondOf (t : Int) : Int := secondOfDay t % 60

/-- `timeToMinuteStart` from `backtest.go`: seconds (and ns) zeroed. -/
def timeToMinuteStart (t : Int) : Int := t - t % 60

/-- `time.Date(y, m, d, 9, 30, 0, 0, EST)` for the day containing `t`. -/
def sessionOpenOfDay (t : Int) : Int := dayStart t + (9 * 3600 + 30 * 60)

/-- `time.Date(y, m, d, 16, 0, 0, 0, EST)` for the day containing `t`. -/
def sessionCloseOfDay (t : Int) : Int := dayStart t + 16 * 3600

/-! ## The fake clock (`fakeClock`, `newFakeClock`, `updateFakeClock`) -/

/-- `fakeClock` struct from `backtest.go`. -/
structure fakeClock where
  Now : Int
  TodaysOpenTime : Int
  TodaysCloseTime : Int
  IsOpen : Bool
  TimeBetweenAction : Int
  deriving DecidableEq

/-- `newFakeClock(timeBetweenAction)`: parses the configured start time and
subtracts one step to counteract the first increase; `IsOpen` starts at
the Go zero value `false`. -/
def newFakeClock (start timeBetweenAction : Int) : fakeClock :=
  { Now := start - timeBetweenAction
    TimeBetweenAction := timeBetweenAction
    TodaysOpenTime := sessionOpenOfDay start
    TodaysCloseTime := sessionCloseOfDay start
    IsOpen := false }

/-- `updateFakeClock`: advance `Now` by one step, then the `switch`:
Sunday and Saturday cases are empty (no field is written); otherwise, if
`Now` is before the open or after the close, mark closed and, exactly at
wall-clock 9:29:00, recompute the day's open/close boundaries; otherwise
mark open. -/
def updateFakeClock (c : fakeClock) : fakeClock :=
  let now := c.Now + c.TimeBetweenAction
  if weekday now = 0 then { c with Now := now }
  else if weekday now = 6 then { c with Now := now }
  else if now < c.TodaysOpenTime ∨ c.TodaysCloseTime < now then
    if hourOf now = 9 ∧ minuteOf now = 29 ∧ secondOf now = 0 then
      { c with Now := now, IsOpen := false,
               TodaysOpenTime := sessionOpenOfDay now,
               TodaysCloseTime := sessionCloseOfDay now }
    else { c with Now := now, IsOpen := false }
  else { c with Now := now, IsOpen := true }

/-- Iterated clock advance. -/
def advanceClock (c : fakeClock) : Nat → fakeClock
  | 0 => c
  | n + 1 => advanceClock (updateFakeClock c) n

/-- Natural market-open predicate: a non-weekend instant between the fixed
9:30:00 open and 16:00:00 close of its own calendar day (both inclusive:
the Go comparison is `!Before(open) && !After(close)`). -/
def naturalOpen (t : Int) : Bool :=
  decide (weekday t ≠ 0 ∧ weekday t ≠ 6 ∧
    sessionOpenOfDay t ≤ t ∧ t ≤ sessionCloseOfDay t)

/-! ## Price samples, orders and the ledger -/

/-- `historicalTickerData` from `backtest.go` (exact decimals as `ℚ`). -/
structure historicalTickerData where
  High : ℚ
  Low : ℚ
  Close : ℚ
  deriving DecidableEq

/-- The one leg of an OCO sell order, `(*o.Legs)[0]`; only its
`StopPrice` and `LimitPrice` fields are ever read. -/
structure OrderLeg where
  StopPrice : Option ℚ
  LimitPrice : Option ℚ
  deriving DecidableEq

/-- The fields of `alpaca.Order` that the backtest reads or writes.
`Side` is the alpaca constant string (`"buy"` / `"sell"`). -/
structure alpacaOrder where
  ID : String
  Status : String
  Side : String
  Qty : ℚ
  LimitPrice : Option ℚ
  FilledQty : ℚ
  FilledAvgPrice : Option ℚ
  Legs : List OrderLeg
  deriving DecidableEq

/-- The backtest ledger: the client fields `backtestCash` and
`backtestStockHeldQty`. -/
structure Ledger where
  backtestCash : ℚ
  backtestStockHeldQty : ℚ
  deriving DecidableEq

/-- `fakeSellAttempt`: under the random gate, resolve an OCO sell order
against the current sample.  The `switch` tests, in order:
`Close ≥ *o.LimitPrice` (fill at the session low),
`Close ≤ *legs[0].LimitPrice` (do nothing: "the limit price was surpassed"),
`Close ≤ *legs[0].StopPrice` (fill at the session low).
Go dereferences `o.Legs` and the three prices; a missing pointer panics
there, which is unreachable for orders built by `fakePlaceSellOrder` —
those branches return the state unchanged here. -/
def fakeSellAttempt (gate : Bool) (price : historicalTickerData)
    (o : alpacaOrder) (st : Ledger) : alpacaOrder × Ledger :=
  if !gate then (o, st)
  else
    match o.Legs, o.LimitPrice with
    | leg :: _, some lim =>
      match leg.LimitPrice, leg.StopPrice with
      | some legLim, some legStop =>
        if lim ≤ price.Close then
          ({ o with Status := "filled", FilledQty := o.Qty,
                    FilledAvgPrice := some price.Low },
           { backtestCash := st.backtestCash + price.Low * o.Qty,
             backtestStockHeldQty := st.backtestStockHeldQty - o.Qty })
        else if price.Close ≤ legLim then (o, st)
        else if price.Close ≤ legStop then
          ({ o with Status := "filled", FilledQty := o.Qty,
                    FilledAvgPrice := some price.Low },
           { backtestCash := st.backtestCash + price.Low * o.Qty,
             backtestStockHeldQty := st.backtestStockHeldQty - o.Qty })
        else (o, st)
      | _, _ => (o, st)
    | _, _ => (o, st)

/-- `fakeBuyAttempt`: under the random gate, a market buy always fills at
the current sample's high. -/
def fakeBuyAttempt (gate : Bool) (price : historicalTickerData)
    (o : alpacaOrder) (st : Ledger) : alpacaOrder × Ledger :=
  if !gate then (o, st)
  else
    ({ o with Status := "filled", FilledQty := o.Qty,
              FilledAvgPrice := some price.High },
     { backtestCash := st.backtestCash - price.High * o.Qty,
       backtestStockHeldQty := st.backtestStockHeldQty + o.Qty })

/-- The resolution core of `fakeOrder` once the order with the requested ID
has been found: orders whose status is not `"new"` are returned as-is;
otherwise the side dispatches to the sell/buy attempt.  (A side that is
neither buy nor sell panics in Go; modelled as no change.) -/
def fakeOrderResolve (gate : Bool) (price : historicalTickerData)
    (o : alpacaOrder) (st : Ledger) : alpacaOrder × Ledger :=
  if o.Status ≠ "new" then (o, st)
  else if o.Side = "sell" then fakeSellAttempt gate price o st
  else if o.Side = "buy" then fakeBuyAttempt gate price o st
  else (o, st)

/-! ## Purchases (`purchase/purchase.go`) and the buy gate (`one.go`) -/

/-- `inProgressStates` from `purchase.go` (keys verbatim, including the
trailing spaces present in the source map literals). -/
def inProgressStates (s : String) : Bool :=
  s = "new" || s = "partially_filled" || s = "done_for_day" ||
  s = "accepted " || s = "pending_new " || s = "accepted_for_bidding" ||
  s = "calculated"

/-- `orderCompletedStates` from `purchase.go`. -/
def orderCompletedStates (s : String) : Bool :=
  s = "filled" || s = "cancelled" || s = "expired" || s = "stopped " ||
  s = "rejected " || s = "suspended "

/-- `endedUnsuccessfullyStates` from `purchase.go`. -/
def endedUnsuccessfullyStates (s : String) : Bool :=
  s = "cancelled" || s = "expired" || s = "stopped " || s = "rejected " ||
  s = "suspended "

/-- `purchase.Purchase` (the database ID and sell year-day are unused by
the claims under study). -/
structure Purchase where
  BuyOrder : Option alpacaOrder
  SellOrder : Option alpacaOrder
  deriving DecidableEq

/-- `Purchase.SellFilled`. -/
def Purchase.SellFilled (p : Purchase) : Bool :=
  match p.SellOrder with
  | none => false
  | some o => o.Status = "filled"

/-- `Purchase.BuyFilled`. -/
def Purchase.BuyFilled (p : Purchase) : Bool :=
  match p.BuyOrder with
  | none => false
  | some o => o.Status = "filled"

/-- `Purchase.BuyInProgress`. -/
def Purchase.BuyInProgress (p : Purchase) : Bool :=
  match p.BuyOrder with
  | none => false
  | some o => inProgressStates o.Status

/-- `Purchase.SellInProgress`. -/
def Purchase.SellInProgress (p : Purchase) : Bool :=
  match p.SellOrder with
  | none => false
  | some o => inProgressStates o.Status

/-- `Purchase.BuyHasStatus`. -/
def Purchase.BuyHasStatus (p : Purchase) (s : String) : Bool :=
  match p.BuyOrder with
  | none => false
  | some o => o.Status = s

/-- `Purchase.SellHasStatus`. -/
def Purchase.SellHasStatus (p : Purchase) (s : String) : Bool :=
  match p.SellOrder with
  | none => false
  | some o => o.Status = s

/-- The `switch` body of `client.inProgressPurchases`: a purchase counts
while the buy is at any valid stage (in progress or filled) and the sell
has not filled. -/
def inProgressPred (p : Purchase) : Bool :=
  if p.SellFilled then false
  else if p.BuyInProgress || p.SellInProgress then true
  else if p.BuyHasStatus "replaced" || p.SellHasStatus "replaced" then true
  else false

/-- `client.inProgressPurchases`. -/
def inProgressPurchases (ps : List Purchase) : List Purchase :=
  ps.filter inProgressPred

/-- `client.fakePlaceBuyOrder`: append a fresh purchase whose buy order has
status `"new"`, market type, the configured quantity and the next ID. -/
def fakePlaceBuyOrder (ps : List Purchase) (id : String) (qty : ℚ)
    : List Purchase :=
  ps ++ [{ BuyOrder := some
            { ID := id, Status := "new", Side := "buy", Qty := qty,
              LimitPrice := none, FilledQty := 0, FilledAvgPrice := none,
              Legs := [] },
           SellOrder := none }]

/-- `client.buy` (backtest path): suppress when the concurrency cap is
reached (`len(inProgressPurchases) >= concurrentPurchases`), or when
`buyEvent` reports no signal; otherwise place a buy order.  The
`buyEvent` outcome is passed in as `buyEv`. -/
def buy (concurrentPurchases : Nat) (ps : List Purchase) (buyEv : Bool)
    (id : String) (qty : ℚ) : List Purchase :=
  if concurrentPurchases ≤ (inProgressPurchases ps).length then ps
  else if !buyEv then ps
  else fakePlaceBuyOrder ps id qty

/-- `client.allPositiveImprovements`: each bar's close strictly improves
over the previous one.  Bars are modelled by their close prices. -/
def allPositiveImprovements : List ℚ → Bool
  | [] => true
  | [_] => true
  | b0 :: b1 :: rest => if b1 ≤ b0 then false
      else allPositiveImprovements (b1 :: rest)

/-- The least-squares slope computed inside `client.barsImprovementSlope`:
`m = (n·ΣXY − ΣX·ΣY) / (n·ΣX² − (ΣX)²)` with `x` the sample index and `y`
the close price. -/
def slopeOf (bars : List ℚ) : ℚ :=
  let e := bars.enum
  let sumX : ℚ := (e.map (fun p => (p.1 : ℚ))).sum
  let sumY : ℚ := (e.map (fun p => p.2)).sum
  let sumX2 : ℚ := (e.map (fun p => (p.1 : ℚ) * (p.1 : ℚ))).sum
  let sumXY : ℚ := (e.map (fun p => (p.1 : ℚ) * p.2)).sum
  let n : ℚ := bars.length
  (n * sumXY - sumX * sumY) / (n * sumX2 - sumX * sumX)

/-- `client.barsImprovementSlope`: a quick pre-check rejects when the last
close is below the first (`bars[len-1].Close < bars[0].Close`), otherwise
the regression slope must reach the configured minimum.  (Go indexes
`bars[0]` and panics on an empty slice; unreachable, since `buyEvent`
requires at least `numHistoricalBarsToUse` bars.) -/
def barsImprovementSlope (minSlope : ℚ) (bars : List ℚ) : Bool :=
  match bars with
  | [] => false
  | b0 :: rest =>
    if (b0 :: rest).getLastD b0 < b0 then false
    else decide (minSlope ≤ slopeOf (b0 :: rest))

/-- `client.buyEvent` (backtest path), after the bars have been fetched:
fail when fewer than `numBars` bars exist; fail when
`cash < bars[0].Close * purchaseQty * 1.2` (the 20% buffer); fail when the
slope gate rejects; fail when the all-sequential-increases flag is set and
some consecutive pair does not improve; otherwise signal a buy. -/
def buyEvent (numBars : Nat) (minSlope : ℚ) (allSeq : Bool)
    (purchaseQty cash : ℚ) (bars : List ℚ) : Bool :=
  if bars.length < numBars then false
  else
    match bars with
    | [] => false
    | b0 :: rest =>
      if cash < b0 * purchaseQty * (6 / 5) then false
      else if !barsImprovementSlope minSlope (b0 :: rest) then false
      else if allSeq && !allPositiveImprovements (b0 :: rest) then false
      else true

/-! ## The historical series (`history`, `historicalData`) -/

/-- The Go map `map[int64]*historicalTickerData` as an association list;
the stored value `none` is a nil `*historicalTickerData`. -/
def HistMap : Type := List (Int × Option historicalTickerData)

instance : DecidableEq HistMap := by
  unfold HistMap
  infer_instance

/-- Map lookup: `some v` when the key is bound (`ok == true` in Go),
where `v` is the stored pointer (possibly `none` = nil). -/
def lookupH (m : HistMap) (k : Int) : Option (Option historicalTickerData) :=
  match m.find? (fun e => e.1 = k) with
  | none => none
  | some e => some e.2

/-- Map store `m[k] = v` (newest binding wins on lookup). -/
def insertH (m : HistMap) (k : Int) (v : Option historicalTickerData)
    : HistMap :=
  (k, v) :: m

/-- `history` struct: the minute map, the end time (`lastValidTime` at the
end of the load; `Int.goZeroTime` when no record was stored), and the
symbol start/end prices. -/
structure history where
  epochToTickerData : HistMap
  endTime : Int
  symbolStartPrice : ℚ
  symbolEndPrice : ℚ
  deriving DecidableEq

/-- `Unix()` of the Go zero `time.Time` (the initial `lastValidTime`). -/
def goZeroTime : Int := -62135596800

/-- One CSV record of the backtest file, with the fallible field parses
(`time.ParseInLocation` on `r[0]`, `decimal.NewFromString` on
`r[2]`, `r[3]`, `r[4]`) abstracted as `Option`-valued results. -/
structure RawRecord where
  t : Option Int
  high : Option ℚ
  low : Option ℚ
  close : Option ℚ

/-- Mutable state of the `historicalData` read loop. -/
structure LoadState where
  clock : fakeClock
  i : Nat
  lastValidTimeStamp : Int
  lastValidTime : Int
  map : HistMap
  symbolStartPrice : ℚ
  symbolEndPrice : ℚ

/-- The inner `for j := i; ...` loop of `historicalData`.  Records older
than the clock are skipped (`i++`, continue); a record in the future
backfills the current minute with the sample stored at
`lastValidTimeStamp` (`i++`, break); an exact match parses the prices and
stores the sample (`i++`, break); running off the end returns with no
store.  Parse failures abort the whole load. -/
def innerScanAux (now : Int) :
    List RawRecord → Nat → Int → Int → HistMap → ℚ → ℚ →
    Except String (Nat × Int × Int × HistMap × ℚ × ℚ)
  | [], i, lastTS, lastTime, m, startP, endP =>
    .ok (i, lastTS, lastTime, m, startP, endP)
  | r :: rest, i, lastTS, lastTime, m, startP, endP =>
    match r.t with
    | none => .error "unable to read in time"
    | some t =>
      if t < now then
        innerScanAux now rest (i + 1) lastTS lastTime m startP endP
      else if now < t then
        .ok (i + 1, lastTS, lastTime,
             insertH m now ((lookupH m lastTS).join), startP, endP)
      else
        match r.high, r.low, r.close with
        | some hi, some lo, some cl =>
          .ok (i + 1, t, t, insertH m t (some ⟨hi, lo, cl⟩),
               if startP = 0 then cl else startP, cl)
        | _, _, _ => .error "unable to convert"

/-- Entry point of the inner scan: record `j` onward (`j = i` at every
call site, mirroring the `for j := i` loop header). -/
def innerScan (records : List RawRecord) (now : Int)
    (j i : Nat) (lastTS lastTime : Int) (m : HistMap) (startP endP : ℚ) :
    Except String (Nat × Int × Int × HistMap × ℚ × ℚ) :=
  innerScanAux now (records.drop j) i lastTS lastTime m startP endP

/-- The outer `for i < len(records)` loop of `historicalData`: on every
iteration the infinite-loop-protection counter is incremented and checked
against 117000 (390 mins/day · 300 days/year); then the clock ticks; closed
minutes are skipped; open minutes run the inner scan.  `fuel` is an upper
bound on the remaining iterations, consumed once per iteration; `none`
means the bound was too small (`loadLoop_fuel` below shows a fuel of
117001 never is). -/
def loadLoop (records : List RawRecord) :
    Nat → Nat → LoadState → Option (Except String history)
  | 0, _, _ => none
  | f + 1, prot, st =>
    if st.i < records.length then
      if 117000 < prot + 1 then some (.error "infinite loop protection")
      else
        let c := updateFakeClock st.clock
        if !c.IsOpen then
          loadLoop records f (prot + 1) { st with clock := c }
        else
          match innerScan records c.Now st.i st.i st.lastValidTimeStamp
              st.lastValidTime st.map st.symbolStartPrice st.symbolEndPrice with
          | .error e => some (.error e)
          | .ok (i, lastTS, lastTime, m, startP, endP) =>
            loadLoop records f (prot + 1)
              { clock := c, i := i, lastValidTimeStamp := lastTS,
                lastValidTime := lastTime, map := m,
                symbolStartPrice := startP, symbolEndPrice := endP }
    else
      some (.ok { epochToTickerData := st.map, endTime := st.lastValidTime,
                  symbolStartPrice := st.symbolStartPrice,
                  symbolEndPrice := st.symbolEndPrice })

/-- Initial state of the `historicalData` loop: a fresh fake clock built
from the configured backtest start time with the backtest-file step
(`backtestFileTimeBetweenAction`), `i = 0`, zero-valued locals. -/
def initLoadState (start step : Int) : LoadState :=
  { clock := newFakeClock start step, i := 0, lastValidTimeStamp := 0,
    lastValidTime := goZeroTime, map := [], symbolStartPrice := 0,
    symbolEndPrice := 0 }

/-- `historicalData` after the CSV has been read into `records`: run the
loop from the fresh clock.  A fuel of 117001 always suffices
(`loadLoop_fuel`), so the `none` fallback is unreachable. -/
def historicalData (records : List RawRecord) (start step : Int) :
    Except String history :=
  (loadLoop records 117001 0 (initLoadState start step)).getD
    (.error "out of fuel")

/-- The lookup of `client.fakeCurrentPrice`: `epochToTickerData` at the
minute start of the clock's `Now`; `none` is the `!ok` panic case, and a
`some none` result is a stored nil pointer. -/
def fakeCurrentPrice (h : history) (now : Int) :
    Option (Option historicalTickerData) :=
  lookupH h.epochToTickerData (timeToMinuteStart now)

/-- The loop body of `client.fakeGetSymbolBars`, counting `i` down from the
lookback bound to 1; a missing minute makes the whole call return nil. -/
def fakeGetSymbolBarsAux (m : HistMap) (base : Int) : Nat → Option (List ℚ)
  | 0 => some []
  | i + 1 =>
    match lookupH m (base - (i + 1) * 60) with
    | some (some s) =>
      match fakeGetSymbolBarsAux m base i with
      | some bars => some (s.Close :: bars)
      | none => none
    | _ => none

/-- `client.fakeGetSymbolBars`: the closes of the `n` minutes preceding the
clock's current minute, oldest first (`bars[0]` is the close from `n`
minutes ago); nil when any minute is missing from the history. -/
def fakeGetSymbolBars (h : history) (now : Int) (n : Nat) : List ℚ :=
  (fakeGetSymbolBarsAux h.epochToTickerData (timeToMinuteStart now) n).getD []

/-! ## C1: OCO sell resolution -/

/-- C1 (counterexample).  The claim states that, with the fill gate
accepting, an OCO sell order with take-profit limit `L` and stop price `S`
fills whenever `closePrice ≤ S`.  It does not: `fakeSellAttempt` tests
`Close ≤ legs[0].LimitPrice` (the stop-loss *limit* price) before the stop
price and does nothing in that case.  Concretely, with `L = 101`, `S = 98`,
stop-loss limit `97` and `closePrice = 96 ≤ S`, the order is returned
unchanged and still has status `"new"` (pending), and the ledger is
untouched. -/
theorem fakeSellAttempt_claimC1_false :
    fakeSellAttempt true ⟨99, 95, 96⟩
      { ID := "1", Status := "new", Side := "sell", Qty := 10,
        LimitPrice := some 101, FilledQty := 0, FilledAvgPrice := none,
        Legs := [{ StopPrice := some 98, LimitPrice := some 97 }] }
      { backtestCash := 100000, backtestStockHeldQty := 10 } =
    ({ ID := "1", Status := "new", Side := "sell", Qty := 10,
       LimitPrice := some 101, FilledQty := 0, FilledAvgPrice := none,
       Legs := [{ StopPrice := some 98, LimitPrice := some 97 }] },
     { backtestCash := 100000, backtestStockHeldQty := 10 }) ∧
    (96 : ℚ) ≤ 98 ∧ (98 : ℚ) < 101 := by
  refine ⟨?_, by norm_num, by norm_num⟩
  simp [fakeSellAttempt]
  norm_num

/-- C1 (amended).  With the fill gate accepting, for an OCO sell order with
take-profit limit `L`, stop price `S` and stop-loss limit `LL`
(`LL ≤ S < L`), against a sample with close `c` and low `lo`:
if `c ≥ L`, or `LL < c ≤ S`, the order fills at the session low (status
`"filled"`, filled price = low, cash increased by `lo·qty`, shares reduced
by `qty`); if `c ≤ LL`, or `S < c < L`, the order and ledger are returned
unchanged (the order remains pending). -/
theorem fakeSellAttempt_oco_resolution (price : historicalTickerData)
    (o : alpacaOrder) (st : Ledger) (leg : OrderLeg) (rest : List OrderLeg)
    (L S LL : ℚ) (hlegs : o.Legs = leg :: rest) (hL : o.LimitPrice = some L)
    (hS : leg.StopPrice = some S) (hLL : leg.LimitPrice = some LL)
    (hLLS : LL ≤ S) (hSL : S < L) :
    ((L ≤ price.Close ∨ (LL < price.Close ∧ price.Close ≤ S)) →
      fakeSellAttempt true price o st =
        ({ o with Status := "filled", FilledQty := o.Qty,
                  FilledAvgPrice := some price.Low },
         { backtestCash := st.backtestCash + price.Low * o.Qty,
           backtestStockHeldQty := st.backtestStockHeldQty - o.Qty })) ∧
    ((price.Close ≤ LL ∨ (S < price.Close ∧ price.Close < L)) →
      fakeSellAttempt true price o st = (o, st)) := by
  have hred : fakeSellAttempt true price o st =
      if L ≤ price.Close then
        ({ o with Status := "filled", FilledQty := o.Qty,
                  FilledAvgPrice := some price.Low },
         { backtestCash := st.backtestCash + price.Low * o.Qty,
           backtestStockHeldQty := st.backtestStockHeldQty - o.Qty })
      else if price.Close ≤ LL then (o, st)
      else if price.Close ≤ S then
        ({ o with Status := "filled", FilledQty := o.Qty,
                  FilledAvgPrice := some price.Low },
         { backtestCash := st.backtestCash + price.Low * o.Qty,
           backtestStockHeldQty := st.backtestStockHeldQty - o.Qty })
      else (o, st) := by
    simp [fakeSellAttempt, hlegs, hL, hS, hLL]
  constructor
  · rintro (hc | ⟨hc1, hc2⟩)
    · rw [hred, if_pos hc]
    · rw [hred, if_neg (by intro h; linarith), if_neg (by intro h; linarith),
        if_pos hc2]
  · rintro (hc | ⟨hc1, hc2⟩)
    · rw [hred, if_neg (by intro h; linarith), if_pos hc]
    · rw [hred, if_neg (by intro h; linarith), if_neg (by intro h; linarith),
        if_neg (by intro h; linarith)]

/-- C1 (witness): the amended theorem at `L = 101`, `S = 98`, `LL = 97`,
applied to a sample closing at 102 (profit leg fills at the low) — and its
pending branch at a close of 99 strictly between stop and limit. -/
theorem fakeSellAttempt_oco_resolution_witness :
    fakeSellAttempt true ⟨103, 101.5, 102⟩
      { ID := "1", Status := "new", Side := "sell", Qty := 10,
        LimitPrice := some 101, FilledQty := 0, FilledAvgPrice := none,
        Legs := [{ StopPrice := some 98, LimitPrice := some 97 }] }
      { backtestCash := 0, backtestStockHeldQty := 10 } =
    ({ ID := "1", Status := "filled", Side := "sell", Qty := 10,
       LimitPrice := some 101, FilledQty := 10,
       FilledAvgPrice := some 101.5,
       Legs := [{ StopPrice := some 98, LimitPrice := some 97 }] },
     { backtestCash := 1015, backtestStockHeldQty := 0 }) ∧
    fakeSellAttempt true ⟨100, 98.5, 99⟩
      { ID := "1", Status := "new", Side := "sell", Qty := 10,
        LimitPrice := some 101, FilledQty := 0, FilledAvgPrice := none,
        Legs := [{ StopPrice := some 98, LimitPrice := some 97 }] }
      { backtestCash := 0, backtestStockHeldQty := 10 } =
    ({ ID := "1", Status := "new", Side := "sell", Qty := 10,
       LimitPrice := some 101, FilledQty := 0, FilledAvgPrice := none,
       Legs := [{ StopPrice := some 98, LimitPrice := some 97 }] },
     { backtestCash := 0, backtestStockHeldQty := 10 }) := by
  constructor
  · have h := (fakeSellAttempt_oco_resolution ⟨103, 101.5, 102⟩
      { ID := "1", Status := "new", Side := "sell", Qty := 10,
        LimitPrice := some 101, FilledQty := 0, FilledAvgPrice := none,
        Legs := [{ StopPrice := some 98, LimitPrice := some 97 }] }
      { backtestCash := 0, backtestStockHeldQty := 10 }
      { StopPrice := some 98, LimitPrice := some 97 } [] 101 98 97
      rfl rfl rfl rfl (by norm_num) (by norm_num)).1
      (Or.inl (by norm_num))
    rw [h]
    norm_num
  · exact (fakeSellAttempt_oco_resolution ⟨100, 98.5, 99⟩
      { ID := "1", Status := "new", Side := "sell", Qty := 10,
        LimitPrice := some 101, FilledQty := 0, FilledAvgPrice := none,
        Legs := [{ StopPrice := some 98, LimitPrice := some 97 }] }
      { backtestCash := 0, backtestStockHeldQty := 10 }
      { StopPrice := some 98, LimitPrice := some 97 } [] 101 98 97
      rfl rfl rfl rfl (by norm_num) (by norm_num)).2
      (Or.inr (by norm_num))

/-! ## C2: exact ledger arithmetic -/

/-- C2.  Fills move the ledger exactly: a buy fill at the sample high
with quantity `q` takes cash to `cash − high·q` and shares to
`shares + q`; every sell fill — whether the take-profit branch
(`L ≤ close`) or the stop-leg branch (`LL < close ≤ S`) fires — executes
at the sample low and takes cash to `cash + low·q` and shares to
`shares − q`, in exact (decimal = rational) arithmetic.  Consequently a
buy fill followed by either kind of sell fill at the identical price and
quantity restores cash and shares exactly. -/
theorem ledger_fill_exact :
    (∀ (p : historicalTickerData) (o : alpacaOrder) (st : Ledger),
      (fakeBuyAttempt true p o st).2 =
        { backtestCash := st.backtestCash - p.High * o.Qty,
          backtestStockHeldQty := st.backtestStockHeldQty + o.Qty }) ∧
    (∀ (p : historicalTickerData) (o : alpacaOrder) (st : Ledger)
      (leg : OrderLeg) (rest : List OrderLeg) (L S LL : ℚ),
      o.Legs = leg :: rest → o.LimitPrice = some L →
      leg.StopPrice = some S → leg.LimitPrice = some LL →
      (L ≤ p.Close ∨ (LL < p.Close ∧ p.Close ≤ S)) →
      (fakeSellAttempt true p o st).2 =
        { backtestCash := st.backtestCash + p.Low * o.Qty,
          backtestStockHeldQty := st.backtestStockHeldQty - o.Qty }) ∧
    (∀ (p1 p2 : historicalTickerData) (o1 o2 : alpacaOrder) (st : Ledger)
      (leg : OrderLeg) (rest : List OrderLeg) (L S LL : ℚ),
      o2.Legs = leg :: rest → o2.LimitPrice = some L →
      leg.StopPrice = some S → leg.LimitPrice = some LL →
      (L ≤ p2.Close ∨ (LL < p2.Close ∧ p2.Close ≤ S)) →
      p2.Low = p1.High → o2.Qty = o1.Qty →
      ((fakeSellAttempt true p2 o2 (fakeBuyAttempt true p1 o1 st).2).2).backtestCash =
        st.backtestCash ∧
      ((fakeSellAttempt true p2 o2 (fakeBuyAttempt true p1 o1 st).2).2).backtestStockHeldQty =
        st.backtestStockHeldQty) := by
  have hbuy : ∀ (p : historicalTickerData) (o : alpacaOrder) (st : Ledger),
      (fakeBuyAttempt true p o st).2 =
        { backtestCash := st.backtestCash - p.High * o.Qty,
          backtestStockHeldQty := st.backtestStockHeldQty + o.Qty } := by
    intro p o st
    simp [fakeBuyAttempt]
  have hsell : ∀ (p : historicalTickerData) (o : alpacaOrder) (st : Ledger)
      (leg : OrderLeg) (rest : List OrderLeg) (L S LL : ℚ),
      o.Legs = leg :: rest → o.LimitPrice = some L →
      leg.StopPrice = some S → leg.LimitPrice = some LL →
      (L ≤ p.Close ∨ (LL < p.Close ∧ p.Close ≤ S)) →
      (fakeSellAttempt true p o st).2 =
        { backtestCash := st.backtestCash + p.Low * o.Qty,
          backtestStockHeldQty := st.backtestStockHeldQty - o.Qty } := by
    intro p o st leg rest L S LL hlegs hL hS hLL hfill
    by_cases hc : L ≤ p.Close
    · simp [fakeSellAttempt, hlegs, hL, hS, hLL, if_pos hc]
    · rcases hfill with hfill | ⟨h1, h2⟩
      · exact absurd hfill hc
      · have hnotle : ¬ p.Close ≤ LL := not_le.mpr h1
        simp [fakeSellAttempt, hlegs, hL, hS, hLL, hc, hnotle, h2]
  refine ⟨hbuy, hsell, ?_⟩
  intro p1 p2 o1 o2 st leg rest L S LL hlegs hL hS hLL hfill hlow hqty
  rw [hsell p2 o2 _ leg rest L S LL hlegs hL hS hLL hfill, hbuy p1 o1 st]
  constructor <;> (simp [hlow, hqty]; try ring)

/-- C2 (witness): buy 10 shares at a high of 102.5 (cash drops by exactly
1025), then sell them via the take-profit leg at a session low equal to
that buy price: cash returns exactly to its starting value; the same
round trip through the stop leg (close 102.35 between the stop-loss
limit 102.325 and the stop 102.377) also restores cash exactly. -/
theorem ledger_fill_exact_witness :
    ((fakeSellAttempt true ⟨103, 102.5, 102.8⟩
      { ID := "2", Status := "new", Side := "sell", Qty := 10,
        LimitPrice := some 102.7, FilledQty := 0, FilledAvgPrice := none,
        Legs := [{ StopPrice := some 102.377, LimitPrice := some 102.325 }] }
      (fakeBuyAttempt true ⟨102.5, 102, 102.2⟩
        { ID := "1", Status := "new", Side := "buy", Qty := 10,
          LimitPrice := none, FilledQty := 0, FilledAvgPrice := none,
          Legs := [] }
        { backtestCash := 100000, backtestStockHeldQty := 0 }).2).2).backtestCash
      = 100000 ∧
    ((fakeSellAttempt true ⟨103, 102.5, 102.35⟩
      { ID := "2", Status := "new", Side := "sell", Qty := 10,
        LimitPrice := some 102.7, FilledQty := 0, FilledAvgPrice := none,
        Legs := [{ StopPrice := some 102.377, LimitPrice := some 102.325 }] }
      (fakeBuyAttempt true ⟨102.5, 102, 102.2⟩
        { ID := "1", Status := "new", Side := "buy", Qty := 10,
          LimitPrice := none, FilledQty := 0, FilledAvgPrice := none,
          Legs := [] }
        { backtestCash := 100000, backtestStockHeldQty := 0 }).2).2).backtestCash
      = 100000 ∧
    (fakeBuyAttempt true ⟨102.5, 102, 102.2⟩
      { ID := "1", Status := "new", Side := "buy", Qty := 10,
        LimitPrice := none, FilledQty := 0, FilledAvgPrice := none,
        Legs := [] }
      { backtestCash := 100000, backtestStockHeldQty := 0 }).2.backtestCash
      = 100000 - 1025 := by
  refine ⟨?_, ?_, ?_⟩
  · exact (ledger_fill_exact.2.2 ⟨102.5, 102, 102.2⟩ ⟨103, 102.5, 102.8⟩
      { ID := "1", Status := "new", Side := "buy", Qty := 10,
        LimitPrice := none, FilledQty := 0, FilledAvgPrice := none,
        Legs := [] }
      { ID := "2", Status := "new", Side := "sell", Qty := 10,
        LimitPrice := some 102.7, FilledQty := 0, FilledAvgPrice := none,
        Legs := [{ StopPrice := some 102.377, LimitPrice := some 102.325 }] }
      { backtestCash := 100000, backtestStockHeldQty := 0 }
      { StopPrice := some 102.377, LimitPrice := some 102.325 } []
      102.7 102.377 102.325
      rfl rfl rfl rfl (Or.inl (by norm_num)) rfl rfl).1
  · exact (ledger_fill_exact.2.2 ⟨102.5, 102, 102.2⟩ ⟨103, 102.5, 102.35⟩
      { ID := "1", Status := "new", Side := "buy", Qty := 10,
        LimitPrice := none, FilledQty := 0, FilledAvgPrice := none,
        Legs := [] }
      { ID := "2", Status := "new", Side := "sell", Qty := 10,
        LimitPrice := some 102.7, FilledQty := 0, FilledAvgPrice := none,
        Legs := [{ StopPrice := some 102.377, LimitPrice := some 102.325 }] }
      { backtestCash := 100000, backtestStockHeldQty := 0 }
      { StopPrice := some 102.377, LimitPrice := some 102.325 } []
      102.7 102.377 102.325
      rfl rfl rfl rfl (Or.inr (by norm_num)) rfl rfl).1
  · rw [ledger_fill_exact.1 ⟨102.5, 102, 102.2⟩
      { ID := "1", Status := "new", Side := "buy", Qty := 10,
        LimitPrice := none, FilledQty := 0, FilledAvgPrice := none,
        Legs := [] }
      { backtestCash := 100000, backtestStockHeldQty := 0 }]
    norm_num

/-! ## C10: resolution is a no-op on non-new orders -/

/-- C10.  `fakeOrder`'s resolution core returns any order whose status is
not `"new"` unchanged, and leaves the ledger (cash, shares held)
untouched, for any gate outcome and any current sample; hence once an
order has filled (status `"filled" ≠ "new"`), resolving it again never
re-applies the fill. -/
theorem fakeOrderResolve_not_new (gate : Bool) (price : historicalTickerData)
    (o : alpacaOrder) (st : Ledger) (h : o.Status ≠ "new") :
    fakeOrderResolve gate price o st = (o, st) := by
  simp [fakeOrderResolve, h]

/-- C10 (witness): resolving an already-filled sell order changes nothing. -/
theorem fakeOrderResolve_not_new_witness :
    fakeOrderResolve true ⟨103, 101, 102⟩
      { ID := "1", Status := "filled", Side := "sell", Qty := 10,
        LimitPrice := some 101, FilledQty := 10, FilledAvgPrice := some 101,
        Legs := [{ StopPrice := some 98, LimitPrice := some 97 }] }
      { backtestCash := 5, backtestStockHeldQty := 7 } =
    ({ ID := "1", Status := "filled", Side := "sell", Qty := 10,
       LimitPrice := some 101, FilledQty := 10, FilledAvgPrice := some 101,
       Legs := [{ StopPrice := some 98, LimitPrice := some 97 }] },
     { backtestCash := 5, backtestStockHeldQty := 7 }) :=
  fakeOrderResolve_not_new true ⟨103, 101, 102⟩
    { ID := "1", Status := "filled", Side := "sell", Qty := 10,
      LimitPrice := some 101, FilledQty := 10, FilledAvgPrice := some 101,
      Legs := [{ StopPrice := some 98, LimitPrice := some 97 }] }
    { backtestCash := 5, backtestStockHeldQty := 7 } (by decide)

/-! ## C8: the regression-slope buy gate -/

/-- C8 (counterexample).  The claim states the gate passes exactly when the
regression slope reaches `minSlopeRequiredToBuy`.  With closes
`[5, 0, 10, 4]` and `minSlopeRequiredToBuy = 1/2` the least-squares slope
is `7/10 ≥ 1/2`, yet `barsImprovementSlope` rejects: its quick pre-check
`bars[len-1].Close < bars[0].Close` fires (4 < 5) before the slope is ever
computed. -/
theorem barsImprovementSlope_claimC8_false :
    (1 / 2 : ℚ) ≤ slopeOf [5, 0, 10, 4] ∧
    slopeOf [5, 0, 10, 4] = 7 / 10 ∧
    barsImprovementSlope (1 / 2) [5, 0, 10, 4] = false := by
  refine ⟨by norm_num [slopeOf, List.enum], by norm_num [slopeOf, List.enum],
    ?_⟩
  simp [barsImprovementSlope]
  norm_num

/-- C8 (amended).  On a nonempty list of closes, the gate passes exactly
when the last close is at least the first (the quick pre-check) *and* the
least-squares regression slope of close against sample index reaches
`minSlopeRequiredToBuy`.  Moreover the slope of the perfectly linear
ascending closes `[1,2,3]` is 1, the slope of the flat closes `[5,5,5]`
is 0, and for any positive threshold the flat list produces no signal. -/
theorem barsImprovementSlope_spec :
    (∀ (minSlope b0 : ℚ) (rest : List ℚ),
      barsImprovementSlope minSlope (b0 :: rest) = true ↔
        (b0 ≤ (b0 :: rest).getLastD b0 ∧ minSlope ≤ slopeOf (b0 :: rest))) ∧
    slopeOf [1, 2, 3] = 1 ∧ slopeOf [5, 5, 5] = 0 ∧
    (∀ minSlope : ℚ, 0 < minSlope →
      barsImprovementSlope minSlope [5, 5, 5] = false) := by
  refine ⟨?_, by norm_num [slopeOf, List.enum], by norm_num [slopeOf, List.enum],
    ?_⟩
  · intro m b0 rest
    simp only [barsImprovementSlope]
    split_ifs with h
    · simp only [Bool.false_eq_true, false_iff, not_and]
      intro hle
      exact absurd h (not_lt.mpr hle)
    · simp only [decide_eq_true_eq]
      exact ⟨fun hs => ⟨not_lt.mp h, hs⟩, fun hs => hs.2⟩
  · intro m hm
    simp only [barsImprovementSlope]
    norm_num [slopeOf, List.enum]
    linarith

/-- C8 (witness): the characterization applied to `[1, 2, 3]` with
threshold 1: the quick check passes (3 ≥ 1), the slope is exactly 1, and
the gate accepts. -/
theorem barsImprovementSlope_spec_witness :
    barsImprovementSlope 1 [1, 2, 3] = true :=
  (barsImprovementSlope_spec.1 1 1 [2, 3]).mpr
    ⟨by norm_num, by rw [barsImprovementSlope_spec.2.1]⟩

/-! ## C7: the cash gate of `buyEvent` -/

/-- A concrete four-minute history: three flat lookback minutes closing at
10, then a current minute whose high is 100. -/
def historyC7 : history :=
  { epochToTickerData :=
      [(240, some ⟨100, 90, 95⟩), (180, some ⟨10, 10, 10⟩),
       (120, some ⟨10, 10, 10⟩), (60, some ⟨10, 10, 10⟩)]
    endTime := 240, symbolStartPrice := 10, symbolEndPrice := 95 }

/-- C7 (counterexample).  The claim states a buy is signaled only if
`cash ≥ currentSample.highPrice · purchaseQty · 1.2`.  In the code the
needed-cash buffer is `bars[0].Close * purchaseQty * 1.2`, where `bars[0]`
is the *close of the oldest lookback bar*, not the current sample's high:
with lookback closes `[10, 10, 10]`, a current-minute high of 100,
`purchaseQty = 1` and `cash = 50`, `buyEvent` signals a buy (50 ≥ 12) even
though `cash < 100 · 1 · 1.2 = 120`. -/
theorem buyEvent_claimC7_false :
    fakeGetSymbolBars historyC7 240 3 = [10, 10, 10] ∧
    buyEvent 3 0 false 1 50 (fakeGetSymbolBars historyC7 240 3) = true ∧
    fakeCurrentPrice historyC7 240 = some (some ⟨100, 90, 95⟩) ∧
    (50 : ℚ) < 100 * 1 * (6 / 5) := by
  have hbars : fakeGetSymbolBars historyC7 240 3 = [10, 10, 10] := by decide
  have hslope : barsImprovementSlope 0 [10, 10, 10] = true := by
    simp only [barsImprovementSlope]
    norm_num [slopeOf, List.enum]
  refine ⟨hbars, ?_, by decide, by norm_num⟩
  rw [hbars]
  norm_num [buyEvent, hslope]

/-- C7 (amended).  `buyEvent` signals a buy only if
`cash ≥ bars[0].Close · purchaseQty · 1.2`, where `bars[0]` is the oldest
of the retrieved lookback bars (`numBars` minutes before the current
minute); whenever cash is below that amount the buy is suppressed
regardless of the slope result. -/
theorem buyEvent_cash_gate (numBars : Nat) (minSlope : ℚ) (allSeq : Bool)
    (purchaseQty cash : ℚ) (bars : List ℚ)
    (h : buyEvent numBars minSlope allSeq purchaseQty cash bars = true) :
    bars.headD 0 * purchaseQty * (6 / 5) ≤ cash := by
  by_contra hlt
  rw [not_le] at hlt
  rcases bars with _ | ⟨b0, rest⟩
  · simp [buyEvent] at h
  · rw [List.headD_cons] at hlt
    simp only [buyEvent] at h
    split_ifs at h

/-- C7 (witness): the amended gate applied to the scenario of
`historyC7` — the signal implies cash covers 1.2× the oldest bar's close. -/
theorem buyEvent_cash_gate_witness :
    (10 : ℚ) * 1 * (6 / 5) ≤ 50 := by
  have hslope : barsImprovementSlope 0 [10, 10, 10] = true := by
    simp only [barsImprovementSlope]
    norm_num [slopeOf, List.enum]
  have hbe : buyEvent 3 0 false 1 50 [10, 10, 10] = true := by
    norm_num [buyEvent, hslope]
  simpa using buyEvent_cash_gate 3 0 false 1 50 [10, 10, 10] hbe

/-! ## C9: the concurrency cap -/

/-- C9.  When the number of in-progress purchases (buy placed but not
fully sold, per `inProgressPurchases`) has reached
`maxConcurrentPurchases`, `buy` places no new order — the purchase list is
returned unchanged regardless of the buy signal; and consequently, from
any state respecting the cap, one `buy` step keeps the count of
in-progress purchases at or below the cap. -/
theorem buy_concurrency_cap :
    (∀ (maxC : Nat) (ps : List Purchase) (ev : Bool) (id : String) (q : ℚ),
      maxC ≤ (inProgressPurchases ps).length →
      buy maxC ps ev id q = ps) ∧
    (∀ (maxC : Nat) (ps : List Purchase) (ev : Bool) (id : String) (q : ℚ),
      (inProgressPurchases ps).length ≤ maxC →
      (inProgressPurchases (buy maxC ps ev id q)).length ≤ maxC) := by
  have hsub : ∀ (maxC : Nat) (ps : List Purchase) (ev : Bool) (id : String)
      (q : ℚ), maxC ≤ (inProgressPurchases ps).length →
      buy maxC ps ev id q = ps := by
    intro maxC ps ev id q h
    simp [buy, if_pos h]
  refine ⟨hsub, ?_⟩
  intro maxC ps ev id q h
  by_cases hcap : maxC ≤ (inProgressPurchases ps).length
  · rw [hsub maxC ps ev id q hcap]
    exact h
  · rcases ev with _ | _
    · simp [buy, if_neg hcap]
      exact h
    · push_neg at hcap
      simp only [buy, if_neg (not_le.mpr hcap), Bool.not_true,
        Bool.false_eq_true, if_false]
      unfold inProgressPurchases at hcap ⊢
      rw [fakePlaceBuyOrder, List.filter_append]
      have : (List.filter inProgressPred
          [({ BuyOrder := some
                { ID := id, Status := "new", Side := "buy", Qty := q,
                  LimitPrice := none, FilledQty := 0, FilledAvgPrice := none,
                  Legs := [] },
              SellOrder := none } : Purchase)]).length ≤ 1 := by
        simp [List.filter]
        split <;> simp
      rw [List.length_append]
      omega

/-- C9 (witness): with `maxConcurrentPurchases = 1` and one position whose
buy has filled and whose sell order is still `"new"` (open but unsold), a
second buy signal produces no new order. -/
theorem buy_concurrency_cap_witness :
    buy 1
      [{ BuyOrder := some
          { ID := "1", Status := "filled", Side := "buy", Qty := 10,
            LimitPrice := none, FilledQty := 10, FilledAvgPrice := some 100,
            Legs := [] },
         SellOrder := some
          { ID := "2", Status := "new", Side := "sell", Qty := 10,
            LimitPrice := some 101, FilledQty := 0, FilledAvgPrice := none,
            Legs := [{ StopPrice := some 98, LimitPrice := some 97 }] } }]
      true "3" 10 =
      [{ BuyOrder := some
          { ID := "1", Status := "filled", Side := "buy", Qty := 10,
            LimitPrice := none, FilledQty := 10, FilledAvgPrice := some 100,
            Legs := [] },
         SellOrder := some
          { ID := "2", Status := "new", Side := "sell", Qty := 10,
            LimitPrice := some 101, FilledQty := 0, FilledAvgPrice := none,
            Legs := [{ StopPrice := some 98, LimitPrice := some 97 }] } }] :=
  buy_concurrency_cap.1 1 _ true "3" 10 (by decide)

/-! ## C3: weekends and `IsOpen` -/

/-- C3 (counterexample).  The claim states that after any advance landing
on a Saturday or Sunday the clock reports `IsOpen = false`, for every
clock state and step duration.  The Saturday/Sunday `switch` cases in
`updateFakeClock` are empty — they do not write `IsOpen` — so a clock that
was open on Friday noon and advances by 24 hours lands on Saturday still
reporting `IsOpen = true`.  (Day 8 of the epoch is a Friday, day 9 a
Saturday.) -/
theorem updateFakeClock_claimC3_false :
    weekday (updateFakeClock
      { Now := 734400, TodaysOpenTime := 725400, TodaysCloseTime := 748800,
        IsOpen := true, TimeBetweenAction := 86400 }).Now = 6 ∧
    (updateFakeClock
      { Now := 734400, TodaysOpenTime := 725400, TodaysCloseTime := 748800,
        IsOpen := true, TimeBetweenAction := 86400 }).IsOpen = true := by
  decide

/-- C3 (amended).  An advance landing on a Saturday or Sunday leaves
`IsOpen` unchanged (the weekend is never *marked* open; the flag merely
retains its previous value).  In particular, a clock constructed at
Friday 23:59 with a one-minute step reports `IsOpen = false` on the next
two advances that land on Saturday (the construction starts the flag at
`false` and the Friday 23:59 tick is after the close).  Day 8 of the
epoch is a Friday; 777540 = day 8, 23:59:00. -/
theorem updateFakeClock_weekend_spec :
    (∀ c : fakeClock,
      (weekday (c.Now + c.TimeBetweenAction) = 0 ∨
       weekday (c.Now + c.TimeBetweenAction) = 6) →
      (updateFakeClock c).IsOpen = c.IsOpen ∧
      (updateFakeClock c).Now = c.Now + c.TimeBetweenAction) ∧
    (weekday (advanceClock (newFakeClock 777540 60) 2).Now = 6 ∧
     (advanceClock (newFakeClock 777540 60) 2).IsOpen = false ∧
     weekday (advanceClock (newFakeClock 777540 60) 3).Now = 6 ∧
     (advanceClock (newFakeClock 777540 60) 3).IsOpen = false) := by
  constructor
  · intro c h
    rcases h with h | h
    · simp [updateFakeClock, h]
    · have h0 : weekday (c.Now + c.TimeBetweenAction) ≠ 0 := by rw [h]; decide
      simp [updateFakeClock, h, h0]
  · decide

/-- C3 (witness): the weekend-preservation part applied to the concrete
Friday-noon clock advancing 24 hours onto Saturday. -/
theorem updateFakeClock_weekend_spec_witness :
    (updateFakeClock
      { Now := 734400, TodaysOpenTime := 725400, TodaysCloseTime := 748800,
        IsOpen := false, TimeBetweenAction := 86400 }).IsOpen = false ∧
    (updateFakeClock
      { Now := 734400, TodaysOpenTime := 725400, TodaysCloseTime := 748800,
        IsOpen := false, TimeBetweenAction := 86400 }).Now = 820800 := by
  have h := updateFakeClock_weekend_spec.1
    { Now := 734400, TodaysOpenTime := 725400, TodaysCloseTime := 748800,
      IsOpen := false, TimeBetweenAction := 86400 } (Or.inr (by decide))
  exact ⟨h.1, h.2⟩

/-! ## C4: when the session boundaries are recomputed -/

/-- Go's 9:29:00 test in `updateFakeClock`, expressed on the second of the
day. -/
theorem hms_eq_iff (t : Int) :
    (hourOf t = 9 ∧ minuteOf t = 29 ∧ secondOf t = 0) ↔
    secondOfDay t = 34140 := by
  unfold hourOf minuteOf secondOf secondOfDay
  omega

/-- C4 (counterexample).  The claim states the session boundaries are
recomputed at the first advance that crosses local midnight into a new
calendar day.  They are not: a one-minute advance from Monday 23:59:00
(day 4 of the epoch) to Tuesday 00:00:00 crosses midnight, yet
`updateFakeClock` leaves `TodaysOpenTime`/`TodaysCloseTime` at Monday's
values (the recompute only happens at a tick landing exactly on
wall-clock 9:29:00). -/
theorem updateFakeClock_claimC4_false :
    dayIndex (updateFakeClock
      { Now := 431940, TodaysOpenTime := 379800, TodaysCloseTime := 403200,
        IsOpen := false, TimeBetweenAction := 60 }).Now ≠ dayIndex 431940 ∧
    (updateFakeClock
      { Now := 431940, TodaysOpenTime := 379800, TodaysCloseTime := 403200,
        IsOpen := false, TimeBetweenAction := 60 }).TodaysOpenTime = 379800 ∧
    (updateFakeClock
      { Now := 431940, TodaysOpenTime := 379800, TodaysCloseTime := 403200,
        IsOpen := false, TimeBetweenAction := 60 }).TodaysOpenTime ≠
      sessionOpenOfDay (updateFakeClock
      { Now := 431940, TodaysOpenTime := 379800, TodaysCloseTime := 403200,
        IsOpen := false, TimeBetweenAction := 60 }).Now := by
  decide

/-- C4 (amended).  `updateFakeClock` recomputes the session boundaries
(to the fixed 9:30–16:00 window of the new current day) exactly when the
advance lands on a non-weekend instant whose wall-clock time of day is
09:29:00 and which lies outside the currently stored open/close window;
every other advance — in particular the first one past midnight — leaves
both boundaries unchanged. -/
theorem updateFakeClock_window_recompute (c : fakeClock) :
    (updateFakeClock c).TodaysOpenTime =
      (if weekday (c.Now + c.TimeBetweenAction) ≠ 0 ∧
          weekday (c.Now + c.TimeBetweenAction) ≠ 6 ∧
          (c.Now + c.TimeBetweenAction < c.TodaysOpenTime ∨
            c.TodaysCloseTime < c.Now + c.TimeBetweenAction) ∧
          secondOfDay (c.Now + c.TimeBetweenAction) = 34140
       then sessionOpenOfDay (c.Now + c.TimeBetweenAction)
       else c.TodaysOpenTime) ∧
    (updateFakeClock c).TodaysCloseTime =
      (if weekday (c.Now + c.TimeBetweenAction) ≠ 0 ∧
          weekday (c.Now + c.TimeBetweenAction) ≠ 6 ∧
          (c.Now + c.TimeBetweenAction < c.TodaysOpenTime ∨
            c.TodaysCloseTime < c.Now + c.TimeBetweenAction) ∧
          secondOfDay (c.Now + c.TimeBetweenAction) = 34140
       then sessionCloseOfDay (c.Now + c.TimeBetweenAction)
       else c.TodaysCloseTime) := by
  constructor <;>
  · simp only [updateFakeClock]
    split_ifs <;> simp_all [hms_eq_iff]

/-- C4 (witness): the characterization applied to a tick landing exactly
on Tuesday 09:29:00 (day 5 of the epoch): the boundaries are recomputed to
Tuesday's window. -/
theorem updateFakeClock_window_recompute_witness :
    (updateFakeClock
      { Now := 466080, TodaysOpenTime := 379800, TodaysCloseTime := 403200,
        IsOpen := false, TimeBetweenAction := 60 }).TodaysOpenTime = 466200 ∧
    (updateFakeClock
      { Now := 466080, TodaysOpenTime := 379800, TodaysCloseTime := 403200,
        IsOpen := false, TimeBetweenAction := 60 }).TodaysCloseTime = 489600 := by
  have h := updateFakeClock_window_recompute
    { Now := 466080, TodaysOpenTime := 379800, TodaysCloseTime := 403200,
      IsOpen := false, TimeBetweenAction := 60 }
  rw [if_pos (by decide)] at h
  rw [if_pos (by decide)] at h
  exact ⟨h.1.trans (by decide), h.2.trans (by decide)⟩

/-! ## C6: the load loop terminates within the iteration cap -/

/-- One-step unfolding of `loadLoop` at positive fuel. -/
theorem loadLoop_succ (records : List RawRecord) (f p : Nat) (st : LoadState) :
    loadLoop records (f + 1) p st =
      if st.i < records.length then
        if 117000 < p + 1 then some (.error "infinite loop protection")
        else
          let c := updateFakeClock st.clock
          if !c.IsOpen then
            loadLoop records f (p + 1) { st with clock := c }
          else
            match innerScan records c.Now st.i st.i st.lastValidTimeStamp
                st.lastValidTime st.map st.symbolStartPrice st.symbolEndPrice with
            | .error e => some (.error e)
            | .ok (i, lastTS, lastTime, m, startP, endP) =>
              loadLoop records f (p + 1)
                { clock := c, i := i, lastValidTimeStamp := lastTS,
                  lastValidTime := lastTime, map := m,
                  symbolStartPrice := startP, symbolEndPrice := endP }
      else
        some (.ok { epochToTickerData := st.map, endTime := st.lastValidTime,
                    symbolStartPrice := st.symbolStartPrice,
                    symbolEndPrice := st.symbolEndPrice }) := rfl

/-- The protection counter guarantees the loop needs at most `117001 - p`
more iterations: any two fuel bounds at least that large agree, and the
result is never the out-of-fuel sentinel. -/
theorem loadLoop_sufficient_fuel (records : List RawRecord) :
    ∀ (f p : Nat) (st : LoadState), 117001 ≤ f + p → 1 ≤ f →
      (loadLoop records f p st).isSome = true ∧
      ∀ f₂, 117001 ≤ f₂ + p → 1 ≤ f₂ →
        loadLoop records f p st = loadLoop records f₂ p st := by
  intro f
  induction f with
  | zero => intro p st h h1; exact absurd h1 (by omega)
  | succ f ih =>
    intro p st h _
    have key : ∀ f₂, 117001 ≤ f₂ + 1 + p →
        (loadLoop records (f₂ + 1) p st).isSome = true ∧
        loadLoop records (f + 1) p st = loadLoop records (f₂ + 1) p st := by
      intro f₂ h₂
      rw [loadLoop_succ records f p st, loadLoop_succ records f₂ p st]
      by_cases hi : st.i < records.length
      · by_cases hp : 117000 < p + 1
        · simp [hi, hp]
        · have hf : 1 ≤ f := by omega
          have hf₂ : 1 ≤ f₂ := by omega
          rcases hopen : (updateFakeClock st.clock).IsOpen with _ | _
          · have h1 := ih (p + 1) { st with clock := updateFakeClock st.clock }
              (by omega) hf
            have h2 := h1.2 f₂ (by omega) hf₂
            simp [hi, hp, hopen, ← h2, h1.1]
          · rcases hscan : innerScan records (updateFakeClock st.clock).Now
                st.i st.i st.lastValidTimeStamp st.lastValidTime st.map
                st.symbolStartPrice st.symbolEndPrice with e | ⟨i, lastTS, lastTime, m, startP, endP⟩
            · simp [hi, hp, hopen, hscan]
            · have h1 := ih (p + 1)
                { clock := updateFakeClock st.clock, i := i,
                  lastValidTimeStamp := lastTS, lastValidTime := lastTime,
                  map := m, symbolStartPrice := startP, symbolEndPrice := endP }
                (by omega) hf
              have h2 := h1.2 f₂ (by omega) hf₂
              simp [hi, hp, hopen, hscan, ← h2, h1.1]
      · simp [hi]
    refine ⟨(key f (by omega)).1, ?_⟩
    intro f₂ h₂ h₂1
    obtain ⟨k, rfl⟩ : ∃ k, f₂ = k + 1 := ⟨f₂ - 1, by omega⟩
    exact (key k (by omega)).2

/-- C6.  The historical-data load terminates on every input record
sequence, malformed ones included: the loop runs at most 117001
iterations (any fuel bound of at least 117001 — one more than the hard
cap of 117000 = 390 mins/day · 300 days/year — yields the very result
`historicalData` returns, never the out-of-fuel sentinel), and whenever
the incremented iteration counter exceeds the cap with records still
unconsumed, the load fails with the infinite-loop-protection
(malformed series) error instead of looping forever. -/
theorem historicalData_terminates (records : List RawRecord)
    (start step : Int) :
    (∀ f : Nat, 117001 ≤ f →
      loadLoop records f 0 (initLoadState start step) =
        some (historicalData records start step)) ∧
    (∀ (f p : Nat) (st : LoadState), st.i < records.length →
      117000 < p + 1 →
      loadLoop records (f + 1) p st =
        some (.error "infinite loop protection")) := by
  constructor
  · intro f hf
    have h := loadLoop_sufficient_fuel records 117001 0
      (initLoadState start step) (by omega) (by omega)
    have hagree := h.2 f (by omega) (by omega)
    have hsome := h.1
    unfold historicalData
    rcases hval : loadLoop records 117001 0 (initLoadState start step) with
      _ | r
    · rw [hval] at hsome
      simp at hsome
    · rw [← hagree, hval]
      rfl
  · intro f p st hi hp
    rw [loadLoop_succ, if_pos hi, if_pos hp]

/-- C6 (witness): the termination bound applied to the empty record list
(the loop exits immediately with an empty series). -/
theorem historicalData_terminates_witness :
    loadLoop [] 117002 0 (initLoadState 0 60) =
      some (historicalData [] 0 60) :=
  (historicalData_terminates [] 0 60).1 117002 (by omega)


/-! ## C5: in-session lookup coverage of the loaded series -/

/-- Prop-level form of the natural market-open predicate. -/
def MarketOpenTime (t : Int) : Prop :=
  weekday t ≠ 0 ∧ weekday t ≠ 6 ∧ sessionOpenOfDay t ≤ t ∧
  t ≤ sessionCloseOfDay t

theorem naturalOpen_iff (t : Int) :
    naturalOpen t = true ↔ MarketOpenTime t := by
  simp [naturalOpen, MarketOpenTime]

instance (t : Int) : Decidable (MarketOpenTime t) := by
  unfold MarketOpenTime
  infer_instance

/-- Invariant of the loader's clock under minute ticking: the step is one
minute, `Now` is minute-aligned, `IsOpen` agrees with the natural open
predicate, and the stored window belongs to a day `w` no later than the
current one — equal to it once the current (non-weekend) day has reached
9:29:00. -/
def ClockInv (c : fakeClock) : Prop :=
  c.TimeBetweenAction = 60 ∧ (60 ∣ c.Now) ∧
  (c.IsOpen = true ↔ MarketOpenTime c.Now) ∧
  ∃ w : Int, c.TodaysOpenTime = w * 86400 + 34200 ∧
    c.TodaysCloseTime = w * 86400 + 57600 ∧ w ≤ dayIndex c.Now ∧
    (weekday c.Now ≠ 0 → weekday c.Now ≠ 6 → 34140 ≤ secondOfDay c.Now →
      w = dayIndex c.Now)

/-- One minute tick preserves the clock invariant. -/
theorem clockInv_step (c : fakeClock) (h : ClockInv c) :
    ClockInv (updateFakeClock c) ∧ (updateFakeClock c).Now = c.Now + 60 := by
  obtain ⟨hstep, hdvd, hopen, w, hw1, hw2, hw3, hw4⟩ := h
  unfold updateFakeClock
  rw [hstep]
  dsimp only
  split_ifs with h0 h6 hwin hms <;> unfold ClockInv <;> dsimp only
  · -- Sunday: no field written, `IsOpen` keeps its previous value
    refine ⟨⟨rfl, by omega, ?_, ⟨w, hw1, hw2, ?_, ?_⟩⟩, rfl⟩
    · have hnow : ¬ MarketOpenTime c.Now := by
        intro hM
        unfold MarketOpenTime weekday sessionOpenOfDay sessionCloseOfDay
          dayStart dayIndex at hM
        unfold weekday at h0
        omega
      have hnow60 : ¬ MarketOpenTime (c.Now + 60) := fun hM => hM.1 h0
      show c.IsOpen = true ↔ MarketOpenTime (c.Now + 60)
      exact ⟨fun hh => ((hnow (hopen.mp hh)).elim),
        fun hh => ((hnow60 hh).elim)⟩
    · show w ≤ dayIndex (c.Now + 60)
      unfold dayIndex at hw3 ⊢
      omega
    · intro hne
      exact (hne h0).elim
  · -- Saturday: no field written, `IsOpen` keeps its previous value
    refine ⟨⟨rfl, by omega, ?_, ⟨w, hw1, hw2, ?_, ?_⟩⟩, rfl⟩
    · have hnow : ¬ MarketOpenTime c.Now := by
        intro hM
        unfold MarketOpenTime weekday sessionOpenOfDay sessionCloseOfDay
          dayStart dayIndex at hM
        unfold weekday at h6 h0
        omega
      have hnow60 : ¬ MarketOpenTime (c.Now + 60) := fun hM => hM.2.1 h6
      show c.IsOpen = true ↔ MarketOpenTime (c.Now + 60)
      exact ⟨fun hh => ((hnow (hopen.mp hh)).elim),
        fun hh => ((hnow60 hh).elim)⟩
    · show w ≤ dayIndex (c.Now + 60)
      unfold dayIndex at hw3 ⊢
      omega
    · intro _ hne
      exact (hne h6).elim
  · -- closed tick at exactly 9:29:00: recompute the window for today
    have htod : secondOfDay (c.Now + 60) = 34140 := (hms_eq_iff _).mp hms
    refine ⟨⟨rfl, by omega, ?_, ⟨dayIndex (c.Now + 60), ?_, ?_, le_refl _,
      fun _ _ _ => rfl⟩⟩, rfl⟩
    · show (false = true) ↔ MarketOpenTime (c.Now + 60)
      simp only [Bool.false_eq_true, false_iff]
      intro hM
      unfold MarketOpenTime sessionOpenOfDay sessionCloseOfDay dayStart
        dayIndex at hM
      unfold secondOfDay at htod
      omega
    · show sessionOpenOfDay (c.Now + 60) = dayIndex (c.Now + 60) * 86400 + 34200
      unfold sessionOpenOfDay dayStart dayIndex
      ring
    · show sessionCloseOfDay (c.Now + 60) = dayIndex (c.Now + 60) * 86400 + 57600
      unfold sessionCloseOfDay dayStart dayIndex
      ring
  · -- closed tick, not 9:29:00: window unchanged
    have htodne : secondOfDay (c.Now + 60) ≠ 34140 :=
      fun he => hms ((hms_eq_iff _).mpr he)
    rw [hw1, hw2] at hwin
    refine ⟨⟨rfl, by omega, ?_, ⟨w, hw1, hw2, ?_, ?_⟩⟩, rfl⟩
    · show (false = true) ↔ MarketOpenTime (c.Now + 60)
      simp only [Bool.false_eq_true, false_iff]
      intro hM
      unfold MarketOpenTime weekday sessionOpenOfDay sessionCloseOfDay
        dayStart dayIndex at hM
      unfold weekday at h0 h6
      unfold dayIndex at hw3
      unfold secondOfDay at htodne
      unfold weekday dayIndex secondOfDay at hw4
      omega
    · show w ≤ dayIndex (c.Now + 60)
      unfold dayIndex at hw3 ⊢
      omega
    · intro hne0 hne6 htod
      show w = dayIndex (c.Now + 60)
      unfold weekday at hne0 hne6 h0 h6
      unfold secondOfDay at htod htodne
      unfold dayIndex at hw3 ⊢
      unfold weekday dayIndex secondOfDay at hw4
      omega
  · -- open tick
    have hwd : w = dayIndex (c.Now + 60) := by
      rw [hw1, hw2] at hwin
      unfold dayIndex at hw3 ⊢
      omega
    rw [hw1, hw2] at hwin
    refine ⟨⟨rfl, by omega, ?_, ⟨w, hw1, hw2, ?_, fun _ _ _ => hwd⟩⟩, rfl⟩
    · show (true = true) ↔ MarketOpenTime (c.Now + 60)
      simp only [true_iff]
      refine ⟨h0, h6, ?_, ?_⟩
      · show sessionOpenOfDay (c.Now + 60) ≤ c.Now + 60
        unfold sessionOpenOfDay dayStart dayIndex
        unfold dayIndex at hwd
        omega
      · show c.Now + 60 ≤ sessionCloseOfDay (c.Now + 60)
        unfold sessionCloseOfDay dayStart dayIndex
        unfold dayIndex at hwd
        omega
    · show w ≤ dayIndex (c.Now + 60)
      exact le_of_eq hwd

/-- The fresh loader clock satisfies the invariant, provided the
configured start time is minute-aligned, at least one minute into its
day, and not inside market hours at the pre-start instant. -/
theorem clockInv_init (start : Int) (hdvd : 60 ∣ start)
    (htod : 60 ≤ secondOfDay start)
    (hclosed : ¬ MarketOpenTime (start - 60)) :
    ClockInv (newFakeClock start 60) := by
  unfold ClockInv newFakeClock
  dsimp only
  refine ⟨rfl, by omega, ?_, ⟨dayIndex start, ?_, ?_, ?_, ?_⟩⟩
  · simp only [Bool.false_eq_true, false_iff]
    exact hclosed
  · unfold sessionOpenOfDay dayStart
    omega
  · unfold sessionCloseOfDay dayStart
    omega
  · unfold dayIndex secondOfDay at *
    omega
  · intro _ _ _
    unfold dayIndex secondOfDay at *
    omega

/-- Storing at `k` makes `k` present. -/
theorem lookupH_insert_self (m : HistMap) (k : Int)
    (v : Option historicalTickerData) :
    lookupH (insertH m k v) k = some v := by
  simp [lookupH, insertH, List.find?]

/-- Storing at `k` does not remove other keys. -/
theorem lookupH_insert_mono (m : HistMap) (k k2 : Int)
    (v : Option historicalTickerData)
    (h : (lookupH m k2).isSome = true) :
    (lookupH (insertH m k v) k2).isSome = true := by
  by_cases he : k = k2
  · subst he
    rw [lookupH_insert_self]
    rfl
  · unfold lookupH at h ⊢
    unfold insertH
    rw [List.find?, decide_eq_false he]
    exact h

/-- What one run of the inner scan does: existing keys survive,
`lastValidTime` is unchanged or becomes the current minute, and either
the current minute was stored (a match or a backfill) or the records ran
out with nothing changed. -/
theorem innerScanAux_spec (now : Int) :
    ∀ (rs : List RawRecord) (i : Nat) (lastTS lastTime : Int) (m : HistMap)
      (sp ep : ℚ) (i2 : Nat) (lastTS2 lastTime2 : Int) (m2 : HistMap)
      (sp2 ep2 : ℚ),
      innerScanAux now rs i lastTS lastTime m sp ep =
        .ok (i2, lastTS2, lastTime2, m2, sp2, ep2) →
      (∀ kk : Int, (lookupH m kk).isSome = true →
        (lookupH m2 kk).isSome = true) ∧
      (lastTime2 = lastTime ∨ lastTime2 = now) ∧
      ((lookupH m2 now).isSome = true ∨
        (i2 = i + rs.length ∧ m2 = m ∧ lastTime2 = lastTime)) := by
  intro rs
  induction rs with
  | nil =>
    intro i lastTS lastTime m sp ep i2 lastTS2 lastTime2 m2 sp2 ep2 hok
    simp only [innerScanAux, Except.ok.injEq, Prod.mk.injEq] at hok
    obtain ⟨e1, _, e3, e4, _, _⟩ := hok
    subst e1 e3 e4
    exact ⟨fun kk hkk => hkk, Or.inl rfl, Or.inr ⟨by simp, rfl, rfl⟩⟩
  | cons r rest ih =>
    intro i lastTS lastTime m sp ep i2 lastTS2 lastTime2 m2 sp2 ep2 hok
    rw [innerScanAux] at hok
    split at hok
    · exact absurd hok (by simp)
    · rename_i t hteq
      by_cases h1 : t < now
      · rw [if_pos h1] at hok
        obtain ⟨hmono, hlast, hstore⟩ := ih (i + 1) lastTS lastTime m sp ep
          i2 lastTS2 lastTime2 m2 sp2 ep2 hok
        refine ⟨hmono, hlast, ?_⟩
        rcases hstore with hs | ⟨hi2, hm2, hl2⟩
        · exact Or.inl hs
        · exact Or.inr ⟨by simp [hi2]; omega, hm2, hl2⟩
      · rw [if_neg h1] at hok
        by_cases h2 : now < t
        · rw [if_pos h2] at hok
          simp only [Except.ok.injEq, Prod.mk.injEq] at hok
          obtain ⟨e1, e2, e3, e4, e5, e6⟩ := hok
          subst e2 e3 e4
          refine ⟨fun kk hkk => lookupH_insert_mono m now kk _ hkk,
            Or.inl rfl, Or.inl ?_⟩
          rw [lookupH_insert_self]
          rfl
        · rw [if_neg h2] at hok
          have htn : t = now := by omega
          split at hok
          · simp only [Except.ok.injEq, Prod.mk.injEq] at hok
            obtain ⟨e1, e2, e3, e4, e5, e6⟩ := hok
            subst htn e2 e3 e4
            refine ⟨fun kk hkk => lookupH_insert_mono m t kk _ hkk,
              Or.inr rfl, Or.inl ?_⟩
            rw [lookupH_insert_self]
            rfl
          · exact absurd hok (by simp)

/-- `innerScan_spec` at the call shape of the outer loop (`j = i`,
`j ≤ records.length`): the no-store case means the record index reached
the end of the file. -/
theorem innerScan_spec (records : List RawRecord) (now : Int)
    (j : Nat) (hj : j ≤ records.length) (lastTS lastTime : Int)
    (m : HistMap) (sp ep : ℚ) (i2 : Nat) (lastTS2 lastTime2 : Int)
    (m2 : HistMap) (sp2 ep2 : ℚ)
    (hok : innerScan records now j j lastTS lastTime m sp ep =
      .ok (i2, lastTS2, lastTime2, m2, sp2, ep2)) :
    (∀ kk : Int, (lookupH m kk).isSome = true →
      (lookupH m2 kk).isSome = true) ∧
    (lastTime2 = lastTime ∨ lastTime2 = now) ∧
    ((lookupH m2 now).isSome = true ∨
      (i2 = records.length ∧ m2 = m ∧ lastTime2 = lastTime)) := by
  obtain ⟨hmono, hlast, hstore⟩ := innerScanAux_spec now (records.drop j)
    j lastTS lastTime m sp ep i2 lastTS2 lastTime2 m2 sp2 ep2 hok
  refine ⟨hmono, hlast, ?_⟩
  rcases hstore with hs | ⟨hi2, hm2, hl2⟩
  · exact Or.inl hs
  · refine Or.inr ⟨?_, hm2, hl2⟩
    rw [hi2, List.length_drop]
    omega

/-- Invariant carried through the outer load loop: the clock invariant,
the end-time bound, and coverage of every open minute strictly after the
pre-start instant `start0` up to the clock (with the sole possible
exception of the final minute once the records have run out). -/
def LoadInv (start0 : Int) (records : List RawRecord) (st : LoadState) :
    Prop :=
  ClockInv st.clock ∧ st.lastValidTime ≤ st.clock.Now ∧
  ∀ m : Int, 60 ∣ m → MarketOpenTime m → start0 < m → m ≤ st.clock.Now →
    ((lookupH st.map m).isSome = true ∨
     (m = st.clock.Now ∧ records.length ≤ st.i ∧ st.lastValidTime < m))

/-- Main coverage induction: a successful run of the load loop from an
invariant state yields a history whose map is defined at every
minute-aligned, market-open timestamp in `(start0, endTime]`. -/
theorem loadLoop_coverage (records : List RawRecord) (start0 : Int) :
    ∀ (f p : Nat) (st : LoadState) (h : history),
      loadLoop records f p st = some (.ok h) →
      LoadInv start0 records st →
      ∀ m : Int, 60 ∣ m → MarketOpenTime m → start0 < m → m ≤ h.endTime →
        (lookupH h.epochToTickerData m).isSome = true := by
  intro f
  induction f with
  | zero =>
    intro p st h hrun
    simp [loadLoop] at hrun
  | succ f ih =>
    intro p st h hrun hinv m hdvd hopen hgt hle
    obtain ⟨hclk, hlast, hcov⟩ := hinv
    rw [loadLoop_succ] at hrun
    by_cases hi : st.i < records.length
    · rw [if_pos hi] at hrun
      by_cases hp : 117000 < p + 1
      · rw [if_pos hp] at hrun
        exact absurd hrun (by simp)
      · rw [if_neg hp] at hrun
        dsimp only at hrun
        obtain ⟨hclk2, hnow2⟩ := clockInv_step st.clock hclk
        by_cases hop : (updateFakeClock st.clock).IsOpen = true
        · rw [if_neg (by simp [hop])] at hrun
          split at hrun
          · exact absurd hrun (by simp)
          · rename_i i2 ts2 lt2 m2 sp2 ep2 hscan
            obtain ⟨hmono, hlt2, hstore⟩ := innerScan_spec records
              (updateFakeClock st.clock).Now st.i (by omega)
              st.lastValidTimeStamp st.lastValidTime
              st.map st.symbolStartPrice st.symbolEndPrice
              i2 ts2 lt2 m2 sp2 ep2 hscan
            refine ih (p + 1)
              { clock := updateFakeClock st.clock, i := i2,
                lastValidTimeStamp := ts2, lastValidTime := lt2, map := m2,
                symbolStartPrice := sp2, symbolEndPrice := ep2 }
              h hrun ⟨hclk2, ?_, ?_⟩ m hdvd hopen hgt hle
            · show lt2 ≤ (updateFakeClock st.clock).Now
              rw [hnow2]
              rcases hlt2 with hl | hl
              · omega
              · rw [hl, hnow2]
            · intro m2v hdvd2 hopen2 hgt2 hle2
              show (lookupH m2 m2v).isSome = true ∨
                (m2v = (updateFakeClock st.clock).Now ∧
                  records.length ≤ i2 ∧ lt2 < m2v)
              rw [hnow2] at hle2
              by_cases hcase : m2v ≤ st.clock.Now
              · rcases hcov m2v hdvd2 hopen2 hgt2 hcase with hsome | hexc
                · exact Or.inl (hmono m2v hsome)
                · omega
              · have hdvdNow : (60 : Int) ∣ st.clock.Now := hclk.2.1
                have heqv : m2v = st.clock.Now + 60 := by omega
                rcases hstore with hsome | ⟨hilen, hmeq, hlteq⟩
                · rw [heqv, ← hnow2]
                  exact Or.inl hsome
                · refine Or.inr ⟨by rw [heqv, hnow2], by omega, ?_⟩
                  rw [hlteq]
                  omega
        · have hop2 : (updateFakeClock st.clock).IsOpen = false :=
            Bool.not_eq_true _ ▸ (by simpa using hop)
          rw [if_pos (by simp [hop2])] at hrun
          refine ih (p + 1) { st with clock := updateFakeClock st.clock }
            h hrun ⟨hclk2, ?_, ?_⟩ m hdvd hopen hgt hle
          · show st.lastValidTime ≤ (updateFakeClock st.clock).Now
            rw [hnow2]
            omega
          · intro m2v hdvd2 hopen2 hgt2 hle2
            show (lookupH st.map m2v).isSome = true ∨
              (m2v = (updateFakeClock st.clock).Now ∧
                records.length ≤ st.i ∧ st.lastValidTime < m2v)
            rw [hnow2] at hle2
            by_cases hcase : m2v ≤ st.clock.Now
            · rcases hcov m2v hdvd2 hopen2 hgt2 hcase with hsome | hexc
              · exact Or.inl hsome
              · omega
            · have hdvdNow : (60 : Int) ∣ st.clock.Now := hclk.2.1
              have heqv : m2v = st.clock.Now + 60 := by omega
              have : MarketOpenTime (updateFakeClock st.clock).Now := by
                rw [hnow2, ← heqv]
                exact hopen2
              exact absurd (hclk2.2.2.1.mpr this) (by simp [hop2])
    · rw [if_neg hi] at hrun
      simp only [Option.some.injEq] at hrun
      have hrun2 := hrun
      injection hrun2 with hh
      subst hh
      dsimp only at hle ⊢
      rcases hcov m hdvd hopen hgt (by omega) with hsome | hexc
      · exact hsome
      · omega

deriving instance DecidableEq for Except

/-- Two records with the same in-session timestamp, one minute after the
backtest start: the first is consumed by the backfill of the start
minute, the second matches. -/
def recordsC5 : List RawRecord :=
  [{ t := some 379860, high := some 1, low := some 1, close := some 1 },
   { t := some 379860, high := some 1, low := some 1, close := some 1 }]

/-- C5 (counterexample).  The claim states every minute-aligned, in-session
timestamp within `[seriesStartTime, seriesEndTime]` is looked up to a
price sample, gaps having been backfilled with the prior valid sample.
Starting the load at Monday 9:30:00 (epoch second 379800, day 4) with
`recordsC5`, the start minute has no prior valid sample: the backfill
stores `epochToTickerData[379800] = epochToTickerData[0]`, which is the
nil pointer — the lookup succeeds but yields no price sample.  The minute
379800 is minute-aligned, inside market hours, and lies within
`[seriesStartTime, seriesEndTime] = [379800, 379860]`. -/
theorem historicalData_claimC5_false :
    historicalData recordsC5 379800 60 =
      .ok { epochToTickerData := [(379860, some ⟨1, 1, 1⟩), (379800, none)],
            endTime := 379860, symbolStartPrice := 1, symbolEndPrice := 1 } ∧
    MarketOpenTime 379800 ∧ (60 : Int) ∣ 379800 ∧
    (379800 : Int) ≤ 379860 ∧
    lookupH [(379860, some ⟨1, 1, 1⟩), (379800, none)] 379800 = some none := by
  refine ⟨by decide, by decide, by decide, by decide, by decide⟩

/-- C5 (amended).  For every record list and every minute-aligned start
time (at least one minute into its calendar day, with the pre-start
instant outside market hours — as with the documented 04:00:00 backtest
start), if the load succeeds then every minute-aligned timestamp that
falls within market-open hours and within `(start − 60, endTime]` is
present in the loaded map: the lookup succeeds (no in-session miss, hence
no panic in `fakeCurrentPrice`), though the stored value for backfilled
minutes preceding the first valid record is the nil placeholder. -/
theorem historicalData_coverage (records : List RawRecord) (start : Int)
    (h : history) (hpos : 0 ≤ start) (hdvd : 60 ∣ start)
    (htod : 60 ≤ secondOfDay start)
    (hclosed : ¬ MarketOpenTime (start - 60))
    (hok : historicalData records start 60 = .ok h) :
    ∀ m : Int, 60 ∣ m → MarketOpenTime m → start - 60 < m →
      m ≤ h.endTime →
      (lookupH h.epochToTickerData m).isSome = true := by
  have hfuel := loadLoop_sufficient_fuel records 117001 0
    (initLoadState start 60) (by omega) (by omega)
  rcases hval : loadLoop records 117001 0 (initLoadState start 60) with _ | r
  · rw [hval] at hfuel
    simp at hfuel
  · have hr : r = .ok h := by
      unfold historicalData at hok
      rw [hval] at hok
      simpa using hok
    subst hr
    refine loadLoop_coverage records (start - 60) 117001 0
      (initLoadState start 60) h hval ⟨?_, ?_, ?_⟩
    · exact clockInv_init start hdvd htod hclosed
    · show goZeroTime ≤ (newFakeClock start 60).Now
      unfold goZeroTime newFakeClock
      dsimp only
      omega
    · intro m2v _ _ hgt2 hle2
      exfalso
      have : (initLoadState start 60).clock.Now = start - 60 := rfl
      omega

/-- C5 (witness): the coverage theorem applied to the `recordsC5` run — the
valid minute 379860 (Monday 9:31) is present in the loaded map. -/
theorem historicalData_coverage_witness :
    (lookupH
      ({ epochToTickerData :=
          [(379860, some ⟨1, 1, 1⟩), (379800, none)],
         endTime := 379860, symbolStartPrice := 1,
         symbolEndPrice := 1 : history}).epochToTickerData
      379860).isSome = true :=
  historicalData_coverage recordsC5 379800
    { epochToTickerData := [(379860, some ⟨1, 1, 1⟩), (379800, none)],
      endTime := 379860, symbolStartPrice := 1, symbolEndPrice := 1 }
    (by decide) (by decide) (by decide) (by decide) (by decide)
    379860 (by decide) (by decide) (by decide) (by decide)
